import Mathlib

/-!
# A verification development for the dnessie DNS forwarder codec

Shallow embedding of the message codec and forwarding orchestrator in
`src/main.rs`.  Bytes are modelled as `Nat` (a `u8` is a `Nat` below 256,
enforced by explicit hypotheses where it matters); the fixed 512-byte
receive buffer is modelled as a total function `Nat → Nat` giving the byte
at each index, and fallible operations return `Except Error _`.
-/

deriving instance DecidableEq for Except

namespace Dnessie

/-- The `Error` enum of `main.rs`. -/
inductive Error where
  | DnsLabelTooLong
  | DnsNameTooLong
  | OnlyOneQuestionSupported
deriving DecidableEq

/-- The `Query` struct: `domain_name` is the fixed `[u8; 253]` array
(modelled as a list of length 253), of which only the first
`domain_name_len` bytes are meaningful.  The Rust field `class` is a Lean
keyword, so it is called `cls` here. -/
structure Query where
  domain_name : List Nat
  domain_name_len : Nat
  ty : Nat
  cls : Nat
deriving DecidableEq

/-- The `Answer` struct: one A-record shaped resource record. -/
structure Answer where
  name : List Nat
  ty : Nat
  cls : Nat
  ttl : Nat
  len : Nat
  address : List Nat
deriving DecidableEq

/-- The `Dns` struct: one parsed or to-be-serialised DNS message. -/
structure Dns where
  transaction_id : List Nat
  flags : Nat
  questions : Nat
  answer_records : Nat
  authority_records : Nat
  additional_records : Nat
  query : Query
  answer : Option Answer
deriving DecidableEq

/-- `(hi as u16) << 8 | lo as u16`, and also `u16::from_be_bytes([hi, lo])`. -/
def fromBe2 (b0 b1 : Nat) : Nat := b0 <<< 8 ||| b1

/-- `u32::from_be_bytes([b0, b1, b2, b3])`. -/
def fromBe4 (b0 b1 b2 b3 : Nat) : Nat := b0 <<< 24 ||| b1 <<< 16 ||| b2 <<< 8 ||| b3

/-- `u16::to_be_bytes` of a value stored in a `u16` field. -/
def be16 (v : Nat) : List Nat := [v / 2 ^ 8 % 2 ^ 8, v % 2 ^ 8]

/-- `u32::to_be_bytes` of a value stored in a `u32` field. -/
def be32 (v : Nat) : List Nat :=
  [v / 2 ^ 24 % 2 ^ 8, v / 2 ^ 16 % 2 ^ 8, v / 2 ^ 8 % 2 ^ 8, v % 2 ^ 8]

/-- `Dns::DNS_FLAG_RESPONSE`, `(1 << 15) as u16`. -/
def DNS_FLAG_RESPONSE : Nat := 1 <<< 15

/-- The domain-name loop of `Dns::parse` (`main.rs` lines 119-146): starting
from `domain_name_pointer`, read the length byte at offset
`12 + domain_name_pointer`, fail on a length above 63, advance past the
label, fail once the cumulative length passes 253, and stop with the final
pointer on a zero-length label.  The loop advances the pointer by at least
one per iteration and aborts once it passes 253, so it runs at most 254
times; the explicit `fuel` argument (instantiated with 254 by `parse`) makes
the recursion structural, and `parseName_fuel_sufficient` below proves the
fuel-exhaustion branch unreachable from any pointer at most 253. -/
def parseName (payload : Nat → Nat) : Nat → Nat → Except Error Nat
  | 0, _ => .error .DnsNameTooLong
  | fuel + 1, domain_name_pointer =>
    let label_len : Nat := payload (12 + domain_name_pointer)
    if 63 < label_len then
      .error .DnsLabelTooLong
    else
      let next := domain_name_pointer + (label_len + 1)
      if 253 < next then
        .error .DnsNameTooLong
      else if label_len = 0 then
        .ok next
      else
        parseName payload fuel next

/-- The answer-record decoding of `Dns::parse` (lines 156-195): a fixed
16-byte record starting at `query_end`. -/
def parseAnswer (payload : Nat → Nat) (query_end : Nat) : Answer :=
  { name := [payload (query_end + 0), payload (query_end + 1)]
    ty := fromBe2 (payload (query_end + 2)) (payload (query_end + 3))
    cls := fromBe2 (payload (query_end + 4)) (payload (query_end + 5))
    ttl := fromBe4 (payload (query_end + 6)) (payload (query_end + 7))
      (payload (query_end + 8)) (payload (query_end + 9))
    len := fromBe2 (payload (query_end + 10)) (payload (query_end + 11))
    address := [payload (query_end + 12), payload (query_end + 13),
      payload (query_end + 14), payload (query_end + 15)] }

/-- `Dns::parse` (lines 102-212). -/
def parse (payload : Nat → Nat) : Except Error Dns :=
  let transaction_id := [payload 0, payload 1]
  let flags := fromBe2 (payload 2) (payload 3)
  let questions := fromBe2 (payload 4) (payload 5)
  if 1 < questions then
    .error .OnlyOneQuestionSupported
  else
    let answer_records := fromBe2 (payload 6) (payload 7)
    let authority_records := fromBe2 (payload 8) (payload 9)
    let additional_records := fromBe2 (payload 10) (payload 11)
    match parseName payload 254 0 with
    | .error e => .error e
    | .ok domain_name_pointer =>
      let domain_name := (List.range 253).map fun i =>
        if i < domain_name_pointer then payload (12 + i) else 0
      let domain_name_end := 12 + domain_name_pointer
      let query_ty := fromBe2 (payload domain_name_end) (payload (domain_name_end + 1))
      let query_class := fromBe2 (payload (domain_name_end + 2)) (payload (domain_name_end + 3))
      let query_end := domain_name_end + 4
      let answer := if 0 < answer_records then some (parseAnswer payload query_end) else none
      .ok { transaction_id := transaction_id
            flags := flags
            questions := questions
            answer_records := answer_records
            authority_records := authority_records
            additional_records := additional_records
            query := { domain_name := domain_name
                       domain_name_len := domain_name_pointer
                       ty := query_ty
                       cls := query_class }
            answer := answer }

/-- `Dns::request` (lines 215-228). -/
def Dns.request (query : Query) : Dns :=
  { transaction_id := [0x13, 0x37]
    flags := 0x100
    questions := 1
    answer_records := 0
    authority_records := 0
    additional_records := 0
    query := query
    answer := none }

/-- `Dns::respond` (lines 230-236); the in-place mutation of `self` is
modelled by returning the updated message. -/
def Dns.respond (self response_from_forward_dns : Dns) : Dns :=
  { self with
    flags := DNS_FLAG_RESPONSE
    answer_records := 1
    authority_records := 0
    additional_records := 0
    answer := response_from_forward_dns.answer }

/-- The byte sequence written by `Dns::serialise` (lines 239-277): the
`fields` array concatenated by `append_to_buffer`, followed by the answer
fields when an answer is present. -/
def Dns.serialiseBytes (d : Dns) : List Nat :=
  (d.transaction_id ++ be16 d.flags ++ be16 d.questions ++ be16 d.answer_records ++
      be16 d.authority_records ++ be16 d.additional_records ++
      d.query.domain_name.take d.query.domain_name_len ++ be16 d.query.ty ++
      be16 d.query.cls) ++
    (match d.answer with
     | some answer =>
         answer.name ++ be16 answer.ty ++ be16 answer.cls ++ be32 answer.ttl ++
           be16 answer.len ++ answer.address
     | none => [])

/-- `Dns::serialise`: writes `serialiseBytes` into the front of the 512-byte
buffer and returns `Ok(buf_ptr)`, the total number of bytes written. -/
def Dns.serialise (d : Dns) (buf : Nat → Nat) : (Nat → Nat) × Except Error Nat :=
  (fun i => if i < d.serialiseBytes.length then d.serialiseBytes.getD i 0 else buf i,
   Except.ok d.serialiseBytes.length)

/-- State machine for `validEncoding`: in state `0` the next byte is a label
length (reject above 63, accept a zero length exactly at the end of the
list); in state `k + 1` the next byte is label content and `k` more content
bytes follow. -/
def validEncodingAux : Nat → List Nat → Bool
  | _, [] => false
  | 0, label_len :: rest =>
    if 63 < label_len then false
    else if label_len = 0 then rest.isEmpty
    else validEncodingAux label_len rest
  | k + 1, _ :: rest => validEncodingAux k rest

/-- A valid length-prefixed label sequence terminated by a zero label: each
length byte is at most 63, each label's bytes are present, and the encoding
ends exactly at the zero label. -/
def validEncoding (l : List Nat) : Bool := validEncodingAux 0 l

/-- The cursor positions visited by the domain-name loop: `scanPos payload k`
is the value of `domain_name_pointer` at the start of iteration `k`, each
iteration advancing by the label length byte it read plus one. -/
def scanPos (payload : Nat → Nat) : Nat → Nat
  | 0 => 0
  | k + 1 => scanPos payload k + (payload (12 + scanPos payload k) + 1)

/-- The first `k` iterations of the domain-name loop all continue: each reads
a label length of at most 63 that is nonzero, and the advanced cursor stays
at most 253 (so neither error fires and the loop does not break). -/
def scanSteps (payload : Nat → Nat) (k : Nat) : Prop :=
  ∀ j, j < k → payload (12 + scanPos payload j) ≤ 63 ∧
    payload (12 + scanPos payload j) ≠ 0 ∧ scanPos payload (j + 1) ≤ 253

instance (payload : Nat → Nat) (k : Nat) : Decidable (scanSteps payload k) := by
  unfold scanSteps
  infer_instance

/-- Well-formedness of an `Answer` as the Rust types force it: 2-byte name,
`u16`/`u32` numeric fields, 4-byte address. -/
def Answer.wf (a : Answer) : Bool :=
  a.name.length == 2 && a.ty < 2 ^ 16 && a.cls < 2 ^ 16 && a.ttl < 2 ^ 32 &&
    a.len < 2 ^ 16 && a.address.length == 4

/-- Well-formedness of a `Query`: a 253-byte array whose first
`domain_name_len` bytes are a valid zero-terminated label sequence, with
`u16` type and class. -/
def Query.wf (q : Query) : Bool :=
  q.domain_name.length == 253 && q.domain_name_len ≤ 253 &&
    validEncoding (q.domain_name.take q.domain_name_len) &&
    q.ty < 2 ^ 16 && q.cls < 2 ^ 16

/-- Well-formedness of a `Dns` message with a single question and
zero-or-one answer: 2-byte transaction id, `u16` numeric fields,
`questions ≤ 1`, a well-formed query, and an answer present iff
`answer_records > 0`. -/
def Dns.wf (d : Dns) : Bool :=
  d.transaction_id.length == 2 && d.flags < 2 ^ 16 && d.questions ≤ 1 &&
    d.answer_records < 2 ^ 16 && d.authority_records < 2 ^ 16 &&
    d.additional_records < 2 ^ 16 && d.query.wf &&
    (match d.answer with
     | some a => decide (0 < d.answer_records) && a.wf
     | none => d.answer_records == 0)

/-! ## Concrete test vectors (from the spec's scenarios) -/

/-- The encoding of `www.example.com` (17 bytes). -/
def exampleName : List Nat :=
  [3, 0x77, 0x77, 0x77, 7, 0x65, 0x78, 0x61, 0x6D, 0x70, 0x6C, 0x65, 3, 0x63, 0x6F, 0x6D, 0]

/-- An A-record answer carrying the address `142.250.200.3` with TTL `0x26`. -/
def exampleAnswer : Answer :=
  { name := [0xC0, 0x0C]
    ty := 1
    cls := 1
    ttl := 0x26
    len := 4
    address := [0x8E, 0xFA, 0xC8, 0x03] }

/-- The parsed form of the spec's simple-query scenario. -/
def exampleMessage : Dns :=
  { transaction_id := [0x13, 0x37]
    flags := 0x100
    questions := 1
    answer_records := 0
    authority_records := 0
    additional_records := 0
    query := { domain_name := exampleName ++ List.replicate 236 0
               domain_name_len := 17
               ty := 1
               cls := 1 }
    answer := none }

/-- A response-shaped message: the scenario query with one answer attached. -/
def exampleResponse : Dns :=
  { transaction_id := [0x13, 0x37]
    flags := 0x8180
    questions := 1
    answer_records := 1
    authority_records := 0
    additional_records := 0
    query := { domain_name := exampleName ++ List.replicate 236 0
               domain_name_len := 17
               ty := 1
               cls := 1 }
    answer := some exampleAnswer }

/-- A buffer with one question whose second label length byte is 64. -/
def badLabelPayload : Nat → Nat := fun i =>
  ([0xAB, 0xCD, 0x01, 0x00, 0x00, 0x01, 0, 0, 0, 0, 0, 0,
    3, 0x77, 0x77, 0x77, 64, 0x61] : List Nat).getD i 0

/-- A domain name of total encoded length exactly 253: four 62-byte labels. -/
def boundaryName : List Nat :=
  (62 :: List.replicate 62 1) ++ (62 :: List.replicate 62 1) ++
    (62 :: List.replicate 62 1) ++ (62 :: List.replicate 62 1) ++ [0]

/-- A buffer with one question carrying `boundaryName`. -/
def boundaryPayload : Nat → Nat := fun i =>
  (([0xAB, 0xCD, 0x01, 0x00, 0x00, 0x01, 0, 0, 0, 0, 0, 0] ++ boundaryName ++
    [0, 1, 0, 1]) : List Nat).getD i 0

/-- A zero-question header followed by an endless run of 63-byte labels, so
the cumulative name length passes 253 after four labels. -/
def overflowPayload : Nat → Nat := fun i => if i < 12 then 0 else 63

/-- A header declaring two questions. -/
def twoQuestionPayload : Nat → Nat := fun i =>
  ([0xAB, 0xCD, 0x01, 0x00, 0x00, 0x02] : List Nat).getD i 0

/-- The all-zero buffer. -/
def zeroPayload : Nat → Nat := fun _ => 0

/-- A buffer agreeing with `zeroPayload` exactly on indices below 285. -/
def paddedPayload : Nat → Nat := fun i => if i < 285 then 0 else 99

/-- A reply buffer with one question (`abc`, type A, class IN) and one
answer record. -/
def answerPayload : Nat → Nat := fun i =>
  ([0xAB, 0xCD, 0x81, 0x80, 0x00, 0x01, 0x00, 0x01, 0, 0, 0, 0,
    3, 0x61, 0x62, 0x63, 0,
    0, 1, 0, 1,
    0xC0, 0x0C, 0, 1, 0, 1, 0, 0, 0, 0x26, 0, 4, 0x8E, 0xFA, 0xC8, 0x03] : List Nat).getD i 0

/-- The message `answerPayload` parses to. -/
def answerMessage : Dns :=
  { transaction_id := [0xAB, 0xCD]
    flags := 0x8180
    questions := 1
    answer_records := 1
    authority_records := 0
    additional_records := 0
    query := { domain_name := [3, 0x61, 0x62, 0x63, 0] ++ List.replicate 248 0
               domain_name_len := 5
               ty := 1
               cls := 1 }
    answer := some { name := [0xC0, 0x0C], ty := 1, cls := 1, ttl := 0x26, len := 4,
                     address := [0x8E, 0xFA, 0xC8, 0x03] } }

/-! ## Bit-level bridges between the shift-or reads and positional arithmetic -/

theorem lor_shift_eq_add (k a b : Nat) (hb : b < 2 ^ k) : a <<< k ||| b = a * 2 ^ k + b := by
  rw [Nat.shiftLeft_eq, Nat.mul_comm, ← Nat.mul_add_lt_is_or hb]

theorem fromBe2_eq {b1 : Nat} (b0 : Nat) (hb : b1 < 256) :
    fromBe2 b0 b1 = b0 * 256 + b1 := by
  have := lor_shift_eq_add 8 b0 b1 (by norm_num [hb])
  simpa [fromBe2] using this

theorem fromBe4_eq {b1 b2 b3 : Nat} (b0 : Nat) (h1 : b1 < 256) (h2 : b2 < 256)
    (h3 : b3 < 256) :
    fromBe4 b0 b1 b2 b3 = b0 * 2 ^ 24 + b1 * 2 ^ 16 + b2 * 2 ^ 8 + b3 := by
  have e1 : b2 <<< 8 ||| b3 = b2 * 2 ^ 8 + b3 := lor_shift_eq_add 8 b2 b3 (by norm_num [h3])
  have e2 : b1 <<< 16 ||| (b2 * 2 ^ 8 + b3) = b1 * 2 ^ 16 + (b2 * 2 ^ 8 + b3) :=
    lor_shift_eq_add 16 b1 _ (by norm_num; omega)
  have e3 : b0 <<< 24 ||| (b1 * 2 ^ 16 + (b2 * 2 ^ 8 + b3)) =
      b0 * 2 ^ 24 + (b1 * 2 ^ 16 + (b2 * 2 ^ 8 + b3)) :=
    lor_shift_eq_add 24 b0 _ (by norm_num; omega)
  calc fromBe4 b0 b1 b2 b3
      = b0 <<< 24 ||| (b1 <<< 16 ||| (b2 <<< 8 ||| b3)) := by
        simp [fromBe4, Nat.lor_assoc]
    _ = b0 * 2 ^ 24 + b1 * 2 ^ 16 + b2 * 2 ^ 8 + b3 := by
        rw [e1, e2, e3]; omega

theorem fromBe2_be16 {v : Nat} (hv : v < 2 ^ 16) :
    fromBe2 (v / 2 ^ 8 % 2 ^ 8) (v % 2 ^ 8) = v := by
  rw [fromBe2_eq _ (by omega : v % 2 ^ 8 < 256)]
  norm_num at hv ⊢
  omega

theorem fromBe4_be32 {v : Nat} (hv : v < 2 ^ 32) :
    fromBe4 (v / 2 ^ 24 % 2 ^ 8) (v / 2 ^ 16 % 2 ^ 8) (v / 2 ^ 8 % 2 ^ 8) (v % 2 ^ 8) = v := by
  rw [fromBe4_eq _ (by omega) (by omega) (by omega)]
  norm_num at hv ⊢
  omega

/-! ## List access helpers -/

theorem getD_prepend (xs ys : List Nat) {n : Nat} (j : Nat) (h : n = xs.length + j) :
    (xs ++ ys).getD n 0 = ys.getD j 0 := by
  subst h
  rw [List.getD_append_right _ _ _ _ (Nat.le_add_right _ _), Nat.add_sub_cancel_left]

theorem getD_take {l : List Nat} {n j : Nat} (h : j < n) :
    (l.take n).getD j 0 = l.getD j 0 := by
  rcases Nat.lt_or_ge j l.length with hj | hj
  · rw [List.getD_eq_getElem _ _ (by simp; omega), List.getD_eq_getElem _ _ hj,
      List.getElem_take]
  · rw [List.getD_eq_default _ _ (by simp; omega), List.getD_eq_default _ _ hj]

theorem getD_drop (l : List Nat) (n j : Nat) : (l.drop n).getD j 0 = l.getD (n + j) 0 := by
  simp [List.getD_eq_getElem?_getD, List.getElem?_drop]

theorem length_eq_four {l : List Nat} (h : l.length = 4) :
    ∃ a b c d, l = [a, b, c, d] := by
  rcases l with _ | ⟨a, _ | ⟨b, _ | ⟨c, _ | ⟨d, _ | ⟨e, rest⟩⟩⟩⟩⟩
  · simp at h
  · simp at h
  · simp at h
  · simp at h
  · exact ⟨a, b, c, d, rfl⟩
  · simp only [List.length_cons] at h; omega

/-! ## Unfolding the valid-encoding predicate -/

theorem validEncodingAux_eq_drop (k : Nat) (l : List Nat) :
    validEncodingAux k l = validEncoding (l.drop k) := by
  induction k generalizing l with
  | zero => simp [validEncoding]
  | succ k ih =>
    cases l with
    | nil => simp [validEncodingAux, validEncoding]
    | cons b rest => simpa [validEncodingAux] using ih rest

theorem validEncoding_cons (label_len : Nat) (rest : List Nat) :
    validEncoding (label_len :: rest) =
      if 63 < label_len then false
      else if label_len = 0 then rest.isEmpty
      else validEncoding (rest.drop label_len) := by
  rw [validEncoding, validEncodingAux]
  split
  · rfl
  · split
    · rfl
    · exact validEncodingAux_eq_drop _ _

theorem validEncoding_nil : validEncoding [] = false := rfl

/-! ## The domain-name loop -/

theorem parseName_fuel_mono (payload : Nat → Nat) :
    ∀ fuel fuel' ptr, ptr ≤ 253 → 254 - ptr ≤ fuel → 254 - ptr ≤ fuel' →
      parseName payload fuel ptr = parseName payload fuel' ptr := by
  intro fuel
  induction fuel with
  | zero => intro fuel' ptr h1 h2 _; omega
  | succ fuel ih =>
    intro fuel' ptr h1 h2 h3
    cases fuel' with
    | zero => omega
    | succ fuel' =>
      simp only [parseName]
      by_cases h63 : 63 < payload (12 + ptr)
      · simp [h63]
      · simp only [if_neg h63]
        by_cases h253 : 253 < ptr + (payload (12 + ptr) + 1)
        · simp [h253]
        · simp only [if_neg h253]
          by_cases hz : payload (12 + ptr) = 0
          · simp [hz]
          · simp only [if_neg hz]
            exact ih fuel' (ptr + (payload (12 + ptr) + 1)) (by omega) (by omega) (by omega)

theorem parseName_ok_bounds (payload : Nat → Nat) :
    ∀ fuel ptr n, parseName payload fuel ptr = .ok n → ptr < n ∧ n ≤ 253 := by
  intro fuel
  induction fuel with
  | zero => intro ptr n h; simp [parseName] at h
  | succ fuel ih =>
    intro ptr n h
    simp only [parseName] at h
    by_cases h63 : 63 < payload (12 + ptr)
    · simp [h63] at h
    · simp only [if_neg h63] at h
      by_cases h253 : 253 < ptr + (payload (12 + ptr) + 1)
      · simp [h253] at h
      · simp only [if_neg h253] at h
        by_cases hz : payload (12 + ptr) = 0
        · simp only [if_pos hz, Except.ok.injEq] at h
          omega
        · simp only [if_neg hz] at h
          have := ih _ _ h
          omega

theorem parseName_of_validEncoding (payload : Nat → Nat) :
    ∀ fuel (enc : List Nat) ptr, validEncoding enc = true →
      ptr + enc.length ≤ 253 → enc.length ≤ fuel →
      (∀ j, j < enc.length → payload (12 + ptr + j) = enc.getD j 0) →
      parseName payload fuel ptr = .ok (ptr + enc.length) := by
  intro fuel
  induction fuel with
  | zero =>
    intro enc ptr hv hle hf _
    have henc : enc = [] := List.eq_nil_of_length_eq_zero (by omega)
    rw [henc, validEncoding_nil] at hv
    exact absurd hv (by simp)
  | succ fuel ih =>
    intro enc ptr hv hle hf hbytes
    cases enc with
    | nil => rw [validEncoding_nil] at hv; exact absurd hv (by simp)
    | cons label_len rest =>
      have hb0 : payload (12 + ptr) = label_len := by
        have h := hbytes 0 (by simp)
        simpa using h
      rw [validEncoding_cons] at hv
      by_cases h63 : 63 < label_len
      · simp [h63] at hv
      · rw [if_neg h63] at hv
        by_cases hz : label_len = 0
        · subst hz
          rw [if_pos rfl] at hv
          have hrest : rest = [] := by simpa [List.isEmpty_iff] using hv
          subst hrest
          simp only [parseName, hb0]
          have hc : ¬ 253 < ptr + (0 + 1) := by simp at hle; omega
          simp [hc]
        · rw [if_neg hz] at hv
          have hne : rest.drop label_len ≠ [] := by
            intro hc; rw [hc, validEncoding_nil] at hv; exact absurd hv (by simp)
          have hlt : label_len < rest.length := by
            by_contra hc
            exact hne (List.drop_eq_nil_of_le (by omega))
          have hlen : (label_len :: rest).length = rest.length + 1 := by simp
          simp only [parseName, hb0]
          rw [if_neg h63]
          have h253 : ¬ 253 < ptr + (label_len + 1) := by rw [hlen] at hle; omega
          rw [if_neg h253, if_neg hz]
          have hrec := ih (rest.drop label_len) (ptr + (label_len + 1)) hv
            (by simp; omega) (by simp at hf ⊢; omega) ?_
          · rw [hrec]
            congr 1
            simp
            omega
          · intro j hj
            simp only [List.length_drop] at hj
            have hidx : 12 + (ptr + (label_len + 1)) + j = 12 + ptr + (label_len + j + 1) := by
              omega
            rw [hidx, getD_drop, hbytes (label_len + j + 1) (by simp; omega)]
            have : label_len + j + 1 = (label_len + j) + 1 := rfl
            rw [this, List.getD_cons_succ]

theorem parseName_cases (payload : Nat → Nat) :
    ∀ fuel ptr, (∃ n, parseName payload fuel ptr = .ok n) ∨
      parseName payload fuel ptr = .error .DnsLabelTooLong ∨
      parseName payload fuel ptr = .error .DnsNameTooLong := by
  intro fuel
  induction fuel with
  | zero => intro ptr; right; right; rfl
  | succ fuel ih =>
    intro ptr
    simp only [parseName]
    by_cases h63 : 63 < payload (12 + ptr)
    · right; left; simp [h63]
    · simp only [if_neg h63]
      by_cases h253 : 253 < ptr + (payload (12 + ptr) + 1)
      · right; right; simp [h253]
      · simp only [if_neg h253]
        by_cases hz : payload (12 + ptr) = 0
        · left
          refine ⟨ptr + (payload (12 + ptr) + 1), ?_⟩
          simp [hz]
        · simp only [if_neg hz]
          exact ih _

theorem parseName_agrees (p q : Nat → Nat) (hpq : ∀ i, i < 285 → p i = q i) :
    ∀ fuel ptr, ptr ≤ 253 → parseName p fuel ptr = parseName q fuel ptr := by
  intro fuel
  induction fuel with
  | zero => intro ptr _; rfl
  | succ fuel ih =>
    intro ptr hptr
    have hread : p (12 + ptr) = q (12 + ptr) := hpq _ (by omega)
    simp only [parseName, hread]
    by_cases h63 : 63 < q (12 + ptr)
    · simp [h63]
    · simp only [if_neg h63]
      by_cases h253 : 253 < ptr + (q (12 + ptr) + 1)
      · simp [h253]
      · simp only [if_neg h253]
        by_cases hz : q (12 + ptr) = 0
        · simp [hz]
        · simp only [if_neg hz]
          exact ih _ (by omega)

/-! ## Shape of `parse` on the two outcomes of the name loop -/

theorem parse_eq_ok (payload : Nat → Nat) (n : Nat)
    (hq : fromBe2 (payload 4) (payload 5) ≤ 1)
    (hname : parseName payload 254 0 = .ok n) :
    parse payload = .ok
      { transaction_id := [payload 0, payload 1]
        flags := fromBe2 (payload 2) (payload 3)
        questions := fromBe2 (payload 4) (payload 5)
        answer_records := fromBe2 (payload 6) (payload 7)
        authority_records := fromBe2 (payload 8) (payload 9)
        additional_records := fromBe2 (payload 10) (payload 11)
        query := { domain_name := (List.range 253).map fun i =>
                     if i < n then payload (12 + i) else 0
                   domain_name_len := n
                   ty := fromBe2 (payload (12 + n)) (payload (12 + n + 1))
                   cls := fromBe2 (payload (12 + n + 2)) (payload (12 + n + 3)) }
        answer := if 0 < fromBe2 (payload 6) (payload 7)
                  then some (parseAnswer payload (12 + n + 4)) else none } := by
  simp only [parse, hname]
  rw [if_neg (by omega)]

theorem parse_eq_error (payload : Nat → Nat) (e : Error)
    (hq : fromBe2 (payload 4) (payload 5) ≤ 1)
    (hname : parseName payload 254 0 = .error e) :
    parse payload = .error e := by
  simp only [parse, hname]
  rw [if_neg (by omega)]

/-! ## The loop cursor trace -/

theorem scanPos_ge (payload : Nat → Nat) : ∀ k, k ≤ scanPos payload k := by
  intro k
  induction k with
  | zero => simp [scanPos]
  | succ k ih => simp only [scanPos]; omega

theorem scanPos_le253 (payload : Nat → Nat) (k : Nat) (h : scanSteps payload k) :
    scanPos payload k ≤ 253 := by
  cases k with
  | zero => simp [scanPos]
  | succ k => exact (h k (by omega)).2.2

theorem scan_reach (payload : Nat → Nat) :
    ∀ k, scanSteps payload k →
      ∀ fuel, parseName payload (fuel + k) 0 = parseName payload fuel (scanPos payload k) := by
  intro k
  induction k with
  | zero => intro _ fuel; simp [scanPos]
  | succ k ih =>
    intro h fuel
    obtain ⟨h63, hz, h253⟩ := h k (by omega)
    have hstep : fuel + (k + 1) = (fuel + 1) + k := by omega
    rw [hstep, ih (fun j hj => h j (by omega)) (fuel + 1)]
    simp only [parseName]
    rw [if_neg (by omega), if_neg (by simp only [scanPos] at h253; omega), if_neg hz]
    rfl

theorem scan_label_too_long (payload : Nat → Nat) (k : Nat) (hsteps : scanSteps payload k)
    (hbig : 63 < payload (12 + scanPos payload k)) :
    parseName payload 254 0 = .error .DnsLabelTooLong := by
  have hk : k ≤ 253 := le_trans (scanPos_ge payload k) (scanPos_le253 payload k hsteps)
  have h254 : (254 : Nat) = (253 - k) + 1 + k := by omega
  rw [h254, scan_reach payload k hsteps]
  simp only [parseName]
  rw [if_pos hbig]

theorem scan_name_too_long (payload : Nat → Nat) (k : Nat) (hsteps : scanSteps payload k)
    (hsmall : payload (12 + scanPos payload k) ≤ 63)
    (hover : 253 < scanPos payload (k + 1)) :
    parseName payload 254 0 = .error .DnsNameTooLong := by
  have hk : k ≤ 253 := le_trans (scanPos_ge payload k) (scanPos_le253 payload k hsteps)
  have h254 : (254 : Nat) = (253 - k) + 1 + k := by omega
  rw [h254, scan_reach payload k hsteps]
  simp only [parseName]
  rw [if_neg (by omega), if_pos (by simp only [scanPos] at hover; omega)]

/-! ## Serialisation shape -/

theorem be16_length (v : Nat) : (be16 v).length = 2 := rfl

theorem be32_length (v : Nat) : (be32 v).length = 4 := rfl

theorem serialise_zero_buf (d : Dns) :
    (d.serialise (fun _ => 0)).1 = fun i => d.serialiseBytes.getD i 0 := by
  funext i
  by_cases h : i < d.serialiseBytes.length
  · simp [Dns.serialise, h]
  · simp only [Dns.serialise, if_neg h]
    rw [List.getD_eq_default _ _ (by omega)]

theorem serialiseBytes_length (d : Dns) (ht : d.transaction_id.length = 2)
    (hdn : d.query.domain_name.length = 253) (hlen : d.query.domain_name_len ≤ 253)
    (hans : ∀ a, d.answer = some a → a.name.length = 2 ∧ a.address.length = 4) :
    d.serialiseBytes.length = 16 + d.query.domain_name_len +
      (if d.answer.isSome then 16 else 0) := by
  cases han : d.answer with
  | none =>
    simp [Dns.serialiseBytes, han, be16, ht, hdn]
    omega
  | some a =>
    obtain ⟨hn, had⟩ := hans a han
    simp [Dns.serialiseBytes, han, be16, be32, ht, hdn, hn, had]
    omega

/-! ## Parsing a freshly serialised message -/

theorem parse_serialiseBytes_core (m : Dns) (t0 t1 : Nat) (A : List Nat)
    (hflags : m.flags < 2 ^ 16) (hques : m.questions ≤ 1)
    (har : m.answer_records < 2 ^ 16) (hau : m.authority_records < 2 ^ 16)
    (hadd : m.additional_records < 2 ^ 16)
    (hdn : m.query.domain_name.length = 253) (hlen : m.query.domain_name_len ≤ 253)
    (hv : validEncoding (m.query.domain_name.take m.query.domain_name_len) = true)
    (hty : m.query.ty < 2 ^ 16) (hcls : m.query.cls < 2 ^ 16)
    (hsplit : m.serialiseBytes =
      [t0, t1, m.flags / 2 ^ 8 % 2 ^ 8, m.flags % 2 ^ 8,
       m.questions / 2 ^ 8 % 2 ^ 8, m.questions % 2 ^ 8,
       m.answer_records / 2 ^ 8 % 2 ^ 8, m.answer_records % 2 ^ 8,
       m.authority_records / 2 ^ 8 % 2 ^ 8, m.authority_records % 2 ^ 8,
       m.additional_records / 2 ^ 8 % 2 ^ 8, m.additional_records % 2 ^ 8] ++
      (m.query.domain_name.take m.query.domain_name_len ++
        (be16 m.query.ty ++ (be16 m.query.cls ++ A)))) :
    ∃ m', parse (fun i => m.serialiseBytes.getD i 0) = .ok m' ∧
      m'.transaction_id = [t0, t1] ∧ m'.flags = m.flags ∧ m'.questions = m.questions ∧
      m'.answer_records = m.answer_records ∧ m'.authority_records = m.authority_records ∧
      m'.additional_records = m.additional_records ∧
      m'.query.domain_name.take m.query.domain_name_len =
        m.query.domain_name.take m.query.domain_name_len ∧
      m'.query.domain_name_len = m.query.domain_name_len ∧
      m'.query.ty = m.query.ty ∧ m'.query.cls = m.query.cls ∧
      m'.answer = (if 0 < m.answer_records
        then some (parseAnswer (fun i => m.serialiseBytes.getD i 0)
          (12 + m.query.domain_name_len + 4))
        else none) ∧
      ∀ j, m.serialiseBytes.getD (12 + m.query.domain_name_len + 4 + j) 0 = A.getD j 0 := by
  have hnamelen : (m.query.domain_name.take m.query.domain_name_len).length =
      m.query.domain_name_len := by
    rw [List.length_take]; omega
  have h0 : m.serialiseBytes.getD 0 0 = t0 := by rw [hsplit]; rfl
  have h1 : m.serialiseBytes.getD 1 0 = t1 := by rw [hsplit]; rfl
  have h2 : m.serialiseBytes.getD 2 0 = m.flags / 2 ^ 8 % 2 ^ 8 := by rw [hsplit]; rfl
  have h3 : m.serialiseBytes.getD 3 0 = m.flags % 2 ^ 8 := by rw [hsplit]; rfl
  have h4 : m.serialiseBytes.getD 4 0 = m.questions / 2 ^ 8 % 2 ^ 8 := by rw [hsplit]; rfl
  have h5 : m.serialiseBytes.getD 5 0 = m.questions % 2 ^ 8 := by rw [hsplit]; rfl
  have h6 : m.serialiseBytes.getD 6 0 = m.answer_records / 2 ^ 8 % 2 ^ 8 := by
    rw [hsplit]; rfl
  have h7 : m.serialiseBytes.getD 7 0 = m.answer_records % 2 ^ 8 := by rw [hsplit]; rfl
  have h8 : m.serialiseBytes.getD 8 0 = m.authority_records / 2 ^ 8 % 2 ^ 8 := by
    rw [hsplit]; rfl
  have h9 : m.serialiseBytes.getD 9 0 = m.authority_records % 2 ^ 8 := by rw [hsplit]; rfl
  have h10 : m.serialiseBytes.getD 10 0 = m.additional_records / 2 ^ 8 % 2 ^ 8 := by
    rw [hsplit]; rfl
  have h11 : m.serialiseBytes.getD 11 0 = m.additional_records % 2 ^ 8 := by rw [hsplit]; rfl
  have hnr : ∀ j, j < m.query.domain_name_len →
      m.serialiseBytes.getD (12 + j) 0 = m.query.domain_name.getD j 0 := by
    intro j hj
    rw [hsplit, getD_prepend _ _ j (by simp),
      List.getD_append _ _ _ _ (by rw [hnamelen]; exact hj)]
    exact getD_take hj
  have htail : ∀ j, m.serialiseBytes.getD (12 + m.query.domain_name_len + j) 0 =
      (be16 m.query.ty ++ (be16 m.query.cls ++ A)).getD j 0 := by
    intro j
    rw [hsplit, getD_prepend _ _ (m.query.domain_name_len + j) (by simp; omega),
      getD_prepend _ _ j (by rw [hnamelen])]
  have hansr : ∀ j, m.serialiseBytes.getD (12 + m.query.domain_name_len + 4 + j) 0 =
      A.getD j 0 := by
    intro j
    have h := htail (4 + j)
    rw [show 12 + m.query.domain_name_len + (4 + j) =
      12 + m.query.domain_name_len + 4 + j from by omega] at h
    rw [h, getD_prepend _ _ (2 + j) (by simp [be16]; omega),
      getD_prepend _ _ j (by simp [be16])]
  have e0 : m.serialiseBytes.getD (12 + m.query.domain_name_len) 0 =
      m.query.ty / 2 ^ 8 % 2 ^ 8 := by
    have h := htail 0
    rw [Nat.add_zero] at h
    rw [h]; rfl
  have e1 : m.serialiseBytes.getD (12 + m.query.domain_name_len + 1) 0 =
      m.query.ty % 2 ^ 8 := by rw [htail 1]; rfl
  have e2 : m.serialiseBytes.getD (12 + m.query.domain_name_len + 2) 0 =
      m.query.cls / 2 ^ 8 % 2 ^ 8 := by rw [htail 2]; rfl
  have e3 : m.serialiseBytes.getD (12 + m.query.domain_name_len + 3) 0 =
      m.query.cls % 2 ^ 8 := by rw [htail 3]; rfl
  have hpn : parseName (fun i => m.serialiseBytes.getD i 0) 254 0 =
      .ok m.query.domain_name_len := by
    have h := parseName_of_validEncoding (fun i => m.serialiseBytes.getD i 0) 254
      (m.query.domain_name.take m.query.domain_name_len) 0 hv
      (by rw [hnamelen]; omega) (by rw [hnamelen]; omega) ?_
    · rw [h, hnamelen]
      norm_num
    · intro j hj
      rw [hnamelen] at hj
      show m.serialiseBytes.getD (12 + 0 + j) 0 = _
      rw [show 12 + 0 + j = 12 + j from by omega, hnr j hj, getD_take hj]
  have hqval : fromBe2 (m.serialiseBytes.getD 4 0) (m.serialiseBytes.getD 5 0) =
      m.questions := by
    rw [h4, h5]; exact fromBe2_be16 (by omega)
  have hparse := parse_eq_ok (fun i => m.serialiseBytes.getD i 0) m.query.domain_name_len
    (by show fromBe2 (m.serialiseBytes.getD 4 0) (m.serialiseBytes.getD 5 0) ≤ 1;
        rw [hqval]; exact hques) hpn
  refine ⟨_, hparse, ?_, ?_, ?_, ?_, ?_, ?_, ?_, rfl, ?_, ?_, ?_, hansr⟩
  · show [m.serialiseBytes.getD 0 0, m.serialiseBytes.getD 1 0] = [t0, t1]
    rw [h0, h1]
  · show fromBe2 (m.serialiseBytes.getD 2 0) (m.serialiseBytes.getD 3 0) = m.flags
    rw [h2, h3]; exact fromBe2_be16 hflags
  · exact hqval
  · show fromBe2 (m.serialiseBytes.getD 6 0) (m.serialiseBytes.getD 7 0) = m.answer_records
    rw [h6, h7]; exact fromBe2_be16 har
  · show fromBe2 (m.serialiseBytes.getD 8 0) (m.serialiseBytes.getD 9 0) =
      m.authority_records
    rw [h8, h9]; exact fromBe2_be16 hau
  · show fromBe2 (m.serialiseBytes.getD 10 0) (m.serialiseBytes.getD 11 0) =
      m.additional_records
    rw [h10, h11]; exact fromBe2_be16 hadd
  · apply List.ext_getElem
    · simp [hdn]
    · intro i hi1 hi2
      have hi : i < m.query.domain_name_len := by
        simp at hi1; omega
      have hi253 : i < 253 := by omega
      rw [List.getElem_take, List.getElem_take, List.getElem_map, List.getElem_range]
      rw [if_pos hi]
      show m.serialiseBytes.getD (12 + i) 0 = _
      rw [hnr i hi, List.getD_eq_getElem _ _ (by omega)]
  · show fromBe2 (m.serialiseBytes.getD (12 + m.query.domain_name_len) 0)
      (m.serialiseBytes.getD (12 + m.query.domain_name_len + 1) 0) = m.query.ty
    rw [e0, e1]; exact fromBe2_be16 hty
  · show fromBe2 (m.serialiseBytes.getD (12 + m.query.domain_name_len + 2) 0)
      (m.serialiseBytes.getD (12 + m.query.domain_name_len + 3) 0) = m.query.cls
    rw [e2, e3]; exact fromBe2_be16 hcls
  · show (if 0 < fromBe2 (m.serialiseBytes.getD 6 0) (m.serialiseBytes.getD 7 0)
      then some (parseAnswer (fun i => m.serialiseBytes.getD i 0)
        (12 + m.query.domain_name_len + 4)) else none) = _
    rw [h6, h7, fromBe2_be16 har]

/-! ## Claims -/

/-- Claim C1: for every well-formed message `m` with a single question and
zero-or-one answer (valid zero-terminated label sequence of total length
`domain_name_len ≤ 253`, `questions ≤ 1`, answer present iff
`answer_records > 0`), parsing the 512-byte buffer produced by serialising
`m` yields a message equal to `m` in every field: transaction id, flags, the
four counts, the first `domain_name_len` domain-name bytes and
`domain_name_len` itself, query type and class, and all answer fields. -/
theorem serialise_parse_roundtrip (m : Dns) (hwf : m.wf = true) :
    ∃ m', parse ((m.serialise (fun _ => 0)).1) = .ok m' ∧
      m'.transaction_id = m.transaction_id ∧ m'.flags = m.flags ∧
      m'.questions = m.questions ∧ m'.answer_records = m.answer_records ∧
      m'.authority_records = m.authority_records ∧
      m'.additional_records = m.additional_records ∧
      m'.query.domain_name.take m.query.domain_name_len =
        m.query.domain_name.take m.query.domain_name_len ∧
      m'.query.domain_name_len = m.query.domain_name_len ∧
      m'.query.ty = m.query.ty ∧ m'.query.cls = m.query.cls ∧
      m'.answer = m.answer := by
  rw [serialise_zero_buf]
  simp only [Dns.wf, Query.wf, Bool.and_eq_true, beq_iff_eq, decide_eq_true_eq] at hwf
  obtain ⟨⟨⟨⟨⟨⟨⟨htid, hflags⟩, hques⟩, har⟩, hau⟩, hadd⟩, hqwf⟩, hmatch⟩ := hwf
  obtain ⟨⟨⟨⟨hdnlen, hlen⟩, hv⟩, htyq⟩, hclsq⟩ := hqwf
  obtain ⟨t0, t1, ht⟩ := List.length_eq_two.mp htid
  cases han : m.answer with
  | none =>
    rw [han] at hmatch
    simp only [beq_iff_eq] at hmatch
    have hsplit : m.serialiseBytes =
        [t0, t1, m.flags / 2 ^ 8 % 2 ^ 8, m.flags % 2 ^ 8,
         m.questions / 2 ^ 8 % 2 ^ 8, m.questions % 2 ^ 8,
         m.answer_records / 2 ^ 8 % 2 ^ 8, m.answer_records % 2 ^ 8,
         m.authority_records / 2 ^ 8 % 2 ^ 8, m.authority_records % 2 ^ 8,
         m.additional_records / 2 ^ 8 % 2 ^ 8, m.additional_records % 2 ^ 8] ++
        (m.query.domain_name.take m.query.domain_name_len ++
          (be16 m.query.ty ++ (be16 m.query.cls ++ ([] : List Nat)))) := by
      simp [Dns.serialiseBytes, ht, be16, han, List.append_assoc]
    obtain ⟨m', hp, c1, c2, c3, c4, c5, c6, c7, c8, c9, c10, c11, _⟩ :=
      parse_serialiseBytes_core m t0 t1 [] hflags hques har hau hadd hdnlen hlen hv
        htyq hclsq hsplit
    exact ⟨m', hp, by rw [c1, ht], c2, c3, c4, c5, c6, c7, c8, c9, c10,
      by rw [c11, if_neg (by omega)]⟩
  | some a =>
    obtain ⟨anm, aty, acls, attl, alen, aaddr⟩ := a
    rw [han] at hmatch
    simp only [Bool.and_eq_true, decide_eq_true_eq] at hmatch
    obtain ⟨hpos, hawf⟩ := hmatch
    simp only [Answer.wf, Bool.and_eq_true, beq_iff_eq, decide_eq_true_eq] at hawf
    obtain ⟨⟨⟨⟨⟨hanl, htya⟩, hclsa⟩, httla⟩, hlena⟩, haddrl⟩ := hawf
    obtain ⟨n0, n1, hname2⟩ := List.length_eq_two.mp hanl
    obtain ⟨d0, d1, d2, d3, haddr4⟩ := length_eq_four haddrl
    subst hname2
    subst haddr4
    have hsplit : m.serialiseBytes =
        [t0, t1, m.flags / 2 ^ 8 % 2 ^ 8, m.flags % 2 ^ 8,
         m.questions / 2 ^ 8 % 2 ^ 8, m.questions % 2 ^ 8,
         m.answer_records / 2 ^ 8 % 2 ^ 8, m.answer_records % 2 ^ 8,
         m.authority_records / 2 ^ 8 % 2 ^ 8, m.authority_records % 2 ^ 8,
         m.additional_records / 2 ^ 8 % 2 ^ 8, m.additional_records % 2 ^ 8] ++
        (m.query.domain_name.take m.query.domain_name_len ++
          (be16 m.query.ty ++ (be16 m.query.cls ++
            ([n0, n1] ++ (be16 aty ++ (be16 acls ++ (be32 attl ++
              (be16 alen ++ [d0, d1, d2, d3])))))))) := by
      simp [Dns.serialiseBytes, ht, be16, be32, han, List.append_assoc]
    obtain ⟨m', hp, c1, c2, c3, c4, c5, c6, c7, c8, c9, c10, c11, hansr⟩ :=
      parse_serialiseBytes_core m t0 t1
        ([n0, n1] ++ (be16 aty ++ (be16 acls ++ (be32 attl ++
          (be16 alen ++ [d0, d1, d2, d3])))))
        hflags hques har hau hadd hdnlen hlen hv htyq hclsq hsplit
    refine ⟨m', hp, by rw [c1, ht], c2, c3, c4, c5, c6, c7, c8, c9, c10, ?_⟩
    rw [c11, if_pos hpos]
    refine congrArg some ?_
    simp only [parseAnswer, Answer.mk.injEq]
    refine ⟨?_, ?_, ?_, ?_, ?_, ?_⟩
    · rw [hansr 0, hansr 1]
      rfl
    · rw [hansr 2, hansr 3]
      exact fromBe2_be16 htya
    · rw [hansr 4, hansr 5]
      exact fromBe2_be16 hclsa
    · rw [hansr 6, hansr 7, hansr 8, hansr 9]
      exact fromBe4_be32 httla
    · rw [hansr 10, hansr 11]
      exact fromBe2_be16 hlena
    · rw [hansr 12, hansr 13, hansr 14, hansr 15]
      rfl

set_option maxRecDepth 100000 in
/-- Witness for C1: the round-trip theorem applied to the scenario response
message (one question for `www.example.com`, one A-record answer). -/
theorem serialise_parse_roundtrip_witness :
    exampleResponse.wf = true ∧
    (∃ m', parse ((exampleResponse.serialise (fun _ => 0)).1) = .ok m' ∧
      m'.transaction_id = exampleResponse.transaction_id ∧
      m'.flags = exampleResponse.flags ∧
      m'.questions = exampleResponse.questions ∧
      m'.answer_records = exampleResponse.answer_records ∧
      m'.authority_records = exampleResponse.authority_records ∧
      m'.additional_records = exampleResponse.additional_records ∧
      m'.query.domain_name.take exampleResponse.query.domain_name_len =
        exampleResponse.query.domain_name.take exampleResponse.query.domain_name_len ∧
      m'.query.domain_name_len = exampleResponse.query.domain_name_len ∧
      m'.query.ty = exampleResponse.query.ty ∧
      m'.query.cls = exampleResponse.query.cls ∧
      m'.answer = exampleResponse.answer) :=
  ⟨by decide, serialise_parse_roundtrip exampleResponse (by decide)⟩

/-- Claim C2: for every original message and every upstream reply whose
answer is `Some A`, `respond` produces a message whose flags are exactly the
response bit `0x8000`, with `answer_records = 1`, zeroed authority and
additional counts, answer `A`, and the transaction id, question count and
entire question section unchanged. -/
theorem respond_merges_answer (original reply : Dns) (A : Answer)
    (h : reply.answer = some A) :
    (original.respond reply).flags = 0x8000 ∧
    (original.respond reply).answer_records = 1 ∧
    (original.respond reply).authority_records = 0 ∧
    (original.respond reply).additional_records = 0 ∧
    (original.respond reply).answer = some A ∧
    (original.respond reply).transaction_id = original.transaction_id ∧
    (original.respond reply).questions = original.questions ∧
    (original.respond reply).query = original.query := by
  refine ⟨rfl, rfl, rfl, rfl, ?_, rfl, rfl, rfl⟩
  show reply.answer = some A
  exact h

/-- Witness for C2: `respond` applied to the scenario query and a reply
carrying the scenario answer. -/
theorem respond_merges_answer_witness :
    exampleResponse.answer = some exampleAnswer ∧
    ((exampleMessage.respond exampleResponse).flags = 0x8000 ∧
    (exampleMessage.respond exampleResponse).answer_records = 1 ∧
    (exampleMessage.respond exampleResponse).authority_records = 0 ∧
    (exampleMessage.respond exampleResponse).additional_records = 0 ∧
    (exampleMessage.respond exampleResponse).answer = some exampleAnswer ∧
    (exampleMessage.respond exampleResponse).transaction_id =
      exampleMessage.transaction_id ∧
    (exampleMessage.respond exampleResponse).questions = exampleMessage.questions ∧
    (exampleMessage.respond exampleResponse).query = exampleMessage.query) :=
  ⟨rfl, respond_merges_answer exampleMessage exampleResponse exampleAnswer rfl⟩

/-- Claim C3: for every buffer whose header passes the question-count check
and in which the domain-name scan reaches (with all earlier labels legal and
the cumulative length still at most 253) a label length byte of 64 or more,
`parse` fails with `DnsLabelTooLong`. -/
theorem parse_label_too_long (payload : Nat → Nat) (k : Nat)
    (hq : fromBe2 (payload 4) (payload 5) ≤ 1)
    (hsteps : scanSteps payload k)
    (hbig : 63 < payload (12 + scanPos payload k)) :
    parse payload = .error .DnsLabelTooLong :=
  parse_eq_error payload _ hq (scan_label_too_long payload k hsteps hbig)

/-- Witness for C3: a buffer whose second label has length byte 64. -/
theorem parse_label_too_long_witness :
    parse badLabelPayload = .error .DnsLabelTooLong :=
  parse_label_too_long badLabelPayload 1 (by decide) (by decide) (by decide)

/-- Claim C4: a buffer (passing the question-count check) whose question
section carries a valid label encoding of total length exactly 253 parses
successfully with `domain_name_len = 253`; a buffer whose scan, with every
label length at most 63, pushes the cumulative length past 253 fails with
`DnsNameTooLong`. -/
theorem parse_name_length_boundary (payload : Nat → Nat) :
    (∀ enc : List Nat, fromBe2 (payload 4) (payload 5) ≤ 1 →
      validEncoding enc = true → enc.length = 253 →
      (∀ j, j < 253 → payload (12 + j) = enc.getD j 0) →
      ∃ m, parse payload = .ok m ∧ m.query.domain_name_len = 253) ∧
    (∀ k, fromBe2 (payload 4) (payload 5) ≤ 1 → scanSteps payload k →
      payload (12 + scanPos payload k) ≤ 63 → 253 < scanPos payload (k + 1) →
      parse payload = .error .DnsNameTooLong) := by
  constructor
  · intro enc hq hv hlen hbytes
    have hpn : parseName payload 254 0 = .ok 253 := by
      have h := parseName_of_validEncoding payload 254 enc 0 hv (by omega) (by omega) ?_
      · rw [h, hlen]
      · intro j hj
        rw [show 12 + 0 + j = 12 + j from by omega]
        exact hbytes j (by omega)
    exact ⟨_, parse_eq_ok payload 253 hq hpn, rfl⟩
  · intro k hq hsteps hsmall hover
    exact parse_eq_error payload _ hq (scan_name_too_long payload k hsteps hsmall hover)

set_option maxRecDepth 100000 in
/-- Witness for C4: a 253-byte name of four 62-byte labels parses with
length 253; a run of 63-byte labels overruns at the fourth step. -/
theorem parse_name_length_boundary_witness :
    (∃ m, parse boundaryPayload = .ok m ∧ m.query.domain_name_len = 253) ∧
    parse overflowPayload = .error .DnsNameTooLong :=
  ⟨(parse_name_length_boundary boundaryPayload).1 boundaryName (by decide) (by decide)
      (by decide) (by decide),
   (parse_name_length_boundary overflowPayload).2 3 (by decide) (by decide)
      (by decide) (by decide)⟩

/-- Claim C5: a buffer whose header declares more than one question (the
big-endian count at offsets 4-5) is rejected with
`OnlyOneQuestionSupported` whatever the rest of the buffer holds — the
quantification over all buffers sharing those two bytes shows the check
happens before any later field is read — while counts 0 and 1 never produce
that error. -/
theorem parse_question_count_check (payload : Nat → Nat) :
    (1 < fromBe2 (payload 4) (payload 5) →
      parse payload = .error .OnlyOneQuestionSupported) ∧
    (fromBe2 (payload 4) (payload 5) ≤ 1 →
      parse payload ≠ .error .OnlyOneQuestionSupported) := by
  constructor
  · intro h
    simp only [parse]
    rw [if_pos h]
  · intro h
    rcases parseName_cases payload 254 0 with ⟨n, hn⟩ | hn | hn
    · rw [parse_eq_ok payload n h hn]
      simp
    · rw [parse_eq_error payload _ h hn]
      simp
    · rw [parse_eq_error payload _ h hn]
      simp

/-- Witness for C5: a two-question header is rejected; the all-zero buffer
is not rejected for its question count. -/
theorem parse_question_count_check_witness :
    parse twoQuestionPayload = .error .OnlyOneQuestionSupported ∧
    parse zeroPayload ≠ .error .OnlyOneQuestionSupported :=
  ⟨(parse_question_count_check twoQuestionPayload).1 (by decide),
   (parse_question_count_check zeroPayload).2 (by decide)⟩

/-- Claim C6: the forward-query constructor returns a message with the fixed
transaction id `[0x13, 0x37]`, flags `0x0100`, one question, all record
counts zero, the given query, and no answer. -/
theorem request_fields (query : Query) :
    (Dns.request query).transaction_id = [0x13, 0x37] ∧
    (Dns.request query).flags = 0x100 ∧
    (Dns.request query).questions = 1 ∧
    (Dns.request query).answer_records = 0 ∧
    (Dns.request query).authority_records = 0 ∧
    (Dns.request query).additional_records = 0 ∧
    (Dns.request query).query = query ∧
    (Dns.request query).answer = none :=
  ⟨rfl, rfl, rfl, rfl, rfl, rfl, rfl, rfl⟩

/-- Witness for C6: the constructor applied to the scenario query. -/
theorem request_fields_witness :
    (Dns.request exampleMessage.query).transaction_id = [0x13, 0x37] ∧
    (Dns.request exampleMessage.query).flags = 0x100 ∧
    (Dns.request exampleMessage.query).questions = 1 ∧
    (Dns.request exampleMessage.query).answer_records = 0 ∧
    (Dns.request exampleMessage.query).authority_records = 0 ∧
    (Dns.request exampleMessage.query).additional_records = 0 ∧
    (Dns.request exampleMessage.query).query = exampleMessage.query ∧
    (Dns.request exampleMessage.query).answer = none :=
  request_fields exampleMessage.query

/-- Claim C7: every message `parse` accepts has an answer exactly when the
header's answer count (offsets 6-7) is positive, and that answer is the
fixed 16-byte record decoded at the offset just past the question section,
`12 + domain_name_len + 4`. -/
theorem parse_answer_iff_count (payload : Nat → Nat) (m : Dns)
    (h : parse payload = .ok m) :
    (m.answer.isSome ↔ 0 < fromBe2 (payload 6) (payload 7)) ∧
    (∀ a, m.answer = some a →
      a = parseAnswer payload (12 + m.query.domain_name_len + 4)) := by
  simp only [parse] at h
  by_cases hq : 1 < fromBe2 (payload 4) (payload 5)
  · rw [if_pos hq] at h
    exact absurd h (by simp)
  · rw [if_neg hq] at h
    cases hpn : parseName payload 254 0 with
    | error e =>
      rw [hpn] at h
      exact absurd h (by simp)
    | ok n =>
      rw [hpn] at h
      injection h with h
      subst h
      constructor
      · by_cases hao : 0 < fromBe2 (payload 6) (payload 7) <;> simp [hao]
      · intro a ha
        by_cases hao : 0 < fromBe2 (payload 6) (payload 7)
        · simp only [if_pos hao] at ha
          have := Option.some.inj ha
          exact this.symm
        · simp only [if_neg hao] at ha
          exact absurd ha (by simp)

set_option maxRecDepth 100000 in
/-- Witness for C7: a reply buffer with one answer record parses to
`answerMessage`, whose answer satisfies both conclusions. -/
theorem parse_answer_iff_count_witness :
    parse answerPayload = .ok answerMessage ∧
    ((answerMessage.answer.isSome ↔ 0 < fromBe2 (answerPayload 6) (answerPayload 7)) ∧
    (∀ a, answerMessage.answer = some a →
      a = parseAnswer answerPayload (12 + answerMessage.query.domain_name_len + 4))) :=
  ⟨by decide, parse_answer_iff_count answerPayload answerMessage (by decide)⟩

/-- Claim C8: for every message whose `domain_name_len` is at most 253 (and
whose fixed-size Rust arrays have their typed lengths), `serialise` returns
`Ok` with the total byte count `12 + domain_name_len + 4`, plus 16 exactly
when an answer is present — at most 285, within the 512-byte buffer. -/
theorem serialise_total_length (d : Dns) (buf : Nat → Nat)
    (ht : d.transaction_id.length = 2)
    (hdn : d.query.domain_name.length = 253)
    (hlen : d.query.domain_name_len ≤ 253)
    (hans : ∀ a, d.answer = some a → a.name.length = 2 ∧ a.address.length = 4) :
    (d.serialise buf).2 = .ok (12 + d.query.domain_name_len + 4 +
      (if d.answer.isSome then 16 else 0)) ∧
    12 + d.query.domain_name_len + 4 + (if d.answer.isSome then 16 else 0) ≤ 285 := by
  have hl := serialiseBytes_length d ht hdn hlen hans
  constructor
  · show Except.ok d.serialiseBytes.length = _
    rw [hl]
    have he : 16 + d.query.domain_name_len + (if d.answer.isSome then 16 else 0) =
        12 + d.query.domain_name_len + 4 + (if d.answer.isSome then 16 else 0) := by
      omega
    rw [he]
  · split <;> omega

set_option maxRecDepth 100000 in
/-- Witness for C8: serialising the scenario response writes
`12 + 17 + 4 + 16 = 49` bytes. -/
theorem serialise_total_length_witness :
    (exampleResponse.serialise (fun _ => 0)).2 =
      .ok (12 + exampleResponse.query.domain_name_len + 4 +
        (if exampleResponse.answer.isSome then 16 else 0)) ∧
    12 + exampleResponse.query.domain_name_len + 4 +
      (if exampleResponse.answer.isSome then 16 else 0) ≤ 285 :=
  serialise_total_length exampleResponse (fun _ => 0) (by decide) (by decide) (by decide)
    (by intro a ha
        injection ha with h2
        subst h2
        exact ⟨rfl, rfl⟩)

/-- Claim C9: `parse` is total and reads only indices below 285: two buffers
agreeing on indices up to 284 parse identically; any fuel of at least 254
(one per loop iteration, the cursor advancing by at least one and aborting
past 253) gives the name loop the same result as the canonical 254; and
every buffer yields a message or one of the three declared errors. -/
theorem parse_reads_bounded (p q : Nat → Nat) (h : ∀ i, i < 285 → p i = q i) :
    parse p = parse q ∧
    (∀ fuel, 254 ≤ fuel → parseName p fuel 0 = parseName p 254 0) ∧
    ((∃ m, parse p = .ok m) ∨ parse p = .error .DnsLabelTooLong ∨
      parse p = .error .DnsNameTooLong ∨
      parse p = .error .OnlyOneQuestionSupported) := by
  have hques : fromBe2 (p 4) (p 5) = fromBe2 (q 4) (q 5) := by
    rw [h 4 (by omega), h 5 (by omega)]
  refine ⟨?_, ?_, ?_⟩
  · by_cases hq1 : 1 < fromBe2 (q 4) (q 5)
    · have hp : parse p = .error .OnlyOneQuestionSupported := by
        simp only [parse]
        rw [if_pos (by rw [hques]; exact hq1)]
      have hq : parse q = .error .OnlyOneQuestionSupported := by
        simp only [parse]
        rw [if_pos hq1]
      rw [hp, hq]
    · have hqp : fromBe2 (p 4) (p 5) ≤ 1 := by rw [hques]; omega
      have hname := parseName_agrees p q h 254 0 (by omega)
      cases hpn : parseName q 254 0 with
      | error e =>
        rw [parse_eq_error p e hqp (hname.trans hpn),
          parse_eq_error q e (by omega) hpn]
      | ok n =>
        have hb := parseName_ok_bounds q 254 0 n hpn
        rw [parse_eq_ok p n hqp (hname.trans hpn), parse_eq_ok q n (by omega) hpn]
        refine congrArg Except.ok ?_
        simp only [Dns.mk.injEq, Query.mk.injEq]
        refine ⟨?_, ?_, hques, ?_, ?_, ?_, ⟨?_, trivial, ?_, ?_⟩, ?_⟩
        · rw [h 0 (by omega), h 1 (by omega)]
        · rw [h 2 (by omega), h 3 (by omega)]
        · rw [h 6 (by omega), h 7 (by omega)]
        · rw [h 8 (by omega), h 9 (by omega)]
        · rw [h 10 (by omega), h 11 (by omega)]
        · apply List.map_congr_left
          intro i hi
          rw [List.mem_range] at hi
          by_cases hin : i < n
          · rw [if_pos hin, if_pos hin, h (12 + i) (by omega)]
          · rw [if_neg hin, if_neg hin]
        · rw [h (12 + n) (by omega), h (12 + n + 1) (by omega)]
        · rw [h (12 + n + 2) (by omega), h (12 + n + 3) (by omega)]
        · rw [h 6 (by omega), h 7 (by omega)]
          by_cases hc : 0 < fromBe2 (q 6) (q 7)
          · rw [if_pos hc, if_pos hc]
            refine congrArg some ?_
            simp only [parseAnswer, Answer.mk.injEq]
            refine ⟨?_, ?_, ?_, ?_, ?_, ?_⟩
            · rw [h (12 + n + 4 + 0) (by omega), h (12 + n + 4 + 1) (by omega)]
            · rw [h (12 + n + 4 + 2) (by omega), h (12 + n + 4 + 3) (by omega)]
            · rw [h (12 + n + 4 + 4) (by omega), h (12 + n + 4 + 5) (by omega)]
            · rw [h (12 + n + 4 + 6) (by omega), h (12 + n + 4 + 7) (by omega),
                h (12 + n + 4 + 8) (by omega), h (12 + n + 4 + 9) (by omega)]
            · rw [h (12 + n + 4 + 10) (by omega), h (12 + n + 4 + 11) (by omega)]
            · rw [h (12 + n + 4 + 12) (by omega), h (12 + n + 4 + 13) (by omega),
                h (12 + n + 4 + 14) (by omega), h (12 + n + 4 + 15) (by omega)]
          · rw [if_neg hc, if_neg hc]
  · intro fuel hf
    exact parseName_fuel_mono p fuel 254 0 (by omega) (by omega) (by omega)
  · by_cases hq1 : 1 < fromBe2 (p 4) (p 5)
    · right; right; right
      simp only [parse]
      rw [if_pos hq1]
    · rcases parseName_cases p 254 0 with ⟨n, hn⟩ | hn | hn
      · exact Or.inl ⟨_, parse_eq_ok p n (by omega) hn⟩
      · exact Or.inr (Or.inl (parse_eq_error p _ (by omega) hn))
      · exact Or.inr (Or.inr (Or.inl (parse_eq_error p _ (by omega) hn)))

set_option maxRecDepth 100000 in
/-- Witness for C9: the all-zero buffer and a buffer differing from it only
at indices 285 and above agree on everything `parse` reads. -/
theorem parse_reads_bounded_witness :
    (∀ i, i < 285 → paddedPayload i = zeroPayload i) ∧
    (parse paddedPayload = parse zeroPayload ∧
    (∀ fuel, 254 ≤ fuel →
      parseName paddedPayload fuel 0 = parseName paddedPayload 254 0) ∧
    ((∃ m, parse paddedPayload = .ok m) ∨
      parse paddedPayload = .error .DnsLabelTooLong ∨
      parse paddedPayload = .error .DnsNameTooLong ∨
      parse paddedPayload = .error .OnlyOneQuestionSupported)) :=
  ⟨by decide, parse_reads_bounded paddedPayload zeroPayload (by decide)⟩

/-- Claim C10: merging a reply whose answer is `None` still advertises one
answer record while carrying none: `respond` leaves `answer = none` but sets
`answer_records = 1`, serialising writes only `16 + domain_name_len` bytes,
and the emitted header's answer-count bytes (offsets 6-7) still read 1. -/
theorem respond_none_sets_count (original reply : Dns) (buf : Nat → Nat)
    (hra : reply.answer = none)
    (ht : original.transaction_id.length = 2)
    (hdn : original.query.domain_name.length = 253)
    (hlen : original.query.domain_name_len ≤ 253) :
    (original.respond reply).answer_records = 1 ∧
    (original.respond reply).answer = none ∧
    ((original.respond reply).serialise buf).2 =
      .ok (16 + original.query.domain_name_len) ∧
    (original.respond reply).serialiseBytes.getD 6 0 = 0 ∧
    (original.respond reply).serialiseBytes.getD 7 0 = 1 := by
  have hansnone : (original.respond reply).answer = none := by
    show reply.answer = none
    exact hra
  have hl := serialiseBytes_length (original.respond reply)
    (by show original.transaction_id.length = 2; exact ht)
    (by show original.query.domain_name.length = 253; exact hdn)
    (by show original.query.domain_name_len ≤ 253; exact hlen)
    (by intro a ha
        rw [hansnone] at ha
        exact absurd ha (by simp))
  obtain ⟨t0, t1, ht2⟩ := List.length_eq_two.mp ht
  refine ⟨rfl, hansnone, ?_, ?_, ?_⟩
  · show Except.ok (original.respond reply).serialiseBytes.length = _
    rw [hl, hansnone]
    simp [Dns.respond]
  · simp only [Dns.serialiseBytes, Dns.respond]
    rw [ht2]
    rfl
  · simp only [Dns.serialiseBytes, Dns.respond]
    rw [ht2]
    rfl

set_option maxRecDepth 100000 in
/-- Witness for C10: responding to the scenario query with a reply that has
no answer (the query itself). -/
theorem respond_none_sets_count_witness :
    (exampleMessage.respond exampleMessage).answer_records = 1 ∧
    (exampleMessage.respond exampleMessage).answer = none ∧
    ((exampleMessage.respond exampleMessage).serialise (fun _ => 0)).2 =
      .ok (16 + exampleMessage.query.domain_name_len) ∧
    (exampleMessage.respond exampleMessage).serialiseBytes.getD 6 0 = 0 ∧
    (exampleMessage.respond exampleMessage).serialiseBytes.getD 7 0 = 1 :=
  respond_none_sets_count exampleMessage exampleMessage (fun _ => 0) rfl (by decide)
    (by decide) (by decide)

end Dnessie
